import Mathlib

/-!
Verification of the scientific-calculator core in `src/App.tsx`.

The program keeps four pieces of React state (`expression`, `displayValue`,
`isRad`, `history`) and exposes the handlers `handleInput`, `handleDelete`,
`handleClear` and `handleCalculate`.  `handleCalculate` rewrites the buffer
with a fixed chain of (regex) replacements and then evaluates the resulting
string as a JavaScript expression via `new Function`, rounds the result to
nine decimal places and stringifies it.

The shallow embedding below models:
  * the state and the four handlers, translated line by line from the source;
  * each string replacement of the normalisation chain, with the exact
    left-to-right, non-overlapping global-replace semantics of the
    JavaScript regexes used in the source;
  * the JavaScript evaluation of the produced expression string
    (`new Function("return " + e)()`): a lexer and recursive-descent parser
    for the expression fragment reachable from the calculator tokens,
    and an evaluator over an idealised IEEE value domain
    (exact reals extended with Infinity / NaN / undefined, no rounding
    error and no negative zero; the `^` (XOR) operator and string-typed
    intermediate values, which no calculator-reachable input produces,
    are outside the fragment);
  * `String(Math.round(r * 1e9) / 1e9)`: for a finite result the rounded
    value is an integer `m` over `10^9`, printed as the decimal numeral of
    `m / 10^9` with trailing zeros stripped, which is the JavaScript string
    of that double for the magnitudes reachable here.
-/

namespace App

/-- The React state of `App` (`src/App.tsx` lines 35-38):
`expression` and `displayValue` strings, the `isRad` angle-unit flag and the
`history` string. -/
structure CalcState where
  expression : String
  displayValue : String
  isRad : Bool
  history : String
deriving DecidableEq, Repr

/-- The initial state: empty buffer, display `"0"`, Degree mode
(`isRad = false`, line 36), empty history. -/
def initState : CalcState := ⟨ "", "0", false, "" ⟩

/-! ## Normalisation: the replacement chain of `handleCalculate` (lines 89-126) -/

/-- Global literal replacement, the semantics of
`String.replace(/lit/g, rep)` for a literal pattern: scan left to right,
replace each non-overlapping occurrence, never rescan emitted text.
Fuelled recursion; the wrapper always supplies enough fuel. -/
def repAll : ℕ → List Char → List Char → List Char → List Char
  | 0, _, _, l => l
  | _ + 1, _, _, [] => []
  | f + 1, pat, rep, c :: cs =>
    if pat.isPrefixOf (c :: cs) && !pat.isEmpty then
      rep ++ repAll f pat rep ((c :: cs).drop pat.length)
    else
      c :: repAll f pat rep cs

/-- Wrapper for `repAll` over strings. -/
def repAllStr (pat rep : String) (l : List Char) : List Char :=
  repAll (l.length + 1) pat.data rep.data l

/-- Match the regex `\d+(\.\d+)?` at the head of the list: one or more
digits, optionally followed by a dot and one or more digits (greedy).
Returns the matched characters and the rest. -/
def matchNum (l : List Char) : Option (List Char × List Char) :=
  let ds := l.takeWhile Char.isDigit
  if ds.isEmpty then none
  else
    match l.drop ds.length with
    | '.' :: r2 =>
      let fs := r2.takeWhile Char.isDigit
      if fs.isEmpty then some (ds, l.drop ds.length)
      else some (ds ++ '.' :: fs, r2.drop fs.length)
    | r => some (ds, r)

/-- The exponent rewrite (line 96):
`replace(/(\d+(\.\d+)?)\^(\d+(\.\d+)?)/g, 'Math.pow($1, $3)')`. -/
def powRw : ℕ → List Char → List Char
  | 0, l => l
  | _ + 1, [] => []
  | f + 1, c :: cs =>
    match matchNum (c :: cs) with
    | some (n1, '^' :: r1) =>
      match matchNum r1 with
      | some (n2, r2) =>
        "Math.pow(".data ++ n1 ++ ", ".data ++ n2 ++ ')' :: powRw f r2
      | none => c :: powRw f cs
    | _ => c :: powRw f cs

/-- The parenthesised square-root rewrite (line 99):
`replace(/√\(([^)]+)\)/g, 'Math.sqrt($1)')`. -/
def sqrtParenRw : ℕ → List Char → List Char
  | 0, l => l
  | _ + 1, [] => []
  | f + 1, c :: cs =>
    if c = '√' then
      match cs with
      | '(' :: r =>
        let content := r.takeWhile (fun ch => !(ch == ')'))
        if content.isEmpty then c :: sqrtParenRw f cs
        else
          match r.drop content.length with
          | ')' :: r2 => "Math.sqrt(".data ++ content ++ ')' :: sqrtParenRw f r2
          | _ => c :: sqrtParenRw f cs
      | _ => c :: sqrtParenRw f cs
    else c :: sqrtParenRw f cs

/-- The bare square-root rewrite (line 100):
`replace(/√(\d+)/g, 'Math.sqrt($1)')`. -/
def sqrtDigitsRw : ℕ → List Char → List Char
  | 0, l => l
  | _ + 1, [] => []
  | f + 1, c :: cs =>
    if c = '√' then
      let ds := cs.takeWhile Char.isDigit
      if ds.isEmpty then c :: sqrtDigitsRw f cs
      else "Math.sqrt(".data ++ ds ++ ')' :: sqrtDigitsRw f (cs.drop ds.length)
    else c :: sqrtDigitsRw f cs

/-- The degree-mode trig rewrite (lines 118-121):
``replace(new RegExp(`${f}\\(([0-9.]+|\\([^)]+\\))\\)`, 'g'),
  (m, p1) => `Math.${f}((${p1}) * Math.PI / 180)`)``.
The argument is either a run of digits and dots followed by `)`, or a single
parenthesised group with no nested parentheses followed by `)`. -/
def degRw (fname : String) : ℕ → List Char → List Char
  | 0, l => l
  | _ + 1, [] => []
  | fu + 1, c :: cs =>
    let pat := (fname ++ "(").data
    if pat.isPrefixOf (c :: cs) then
      let r := (c :: cs).drop pat.length
      let ds := r.takeWhile (fun ch => ch.isDigit || ch == '.')
      match r.drop ds.length with
      | ')' :: r2 =>
        if ds.isEmpty then
          -- only the parenthesised alternative could still match, but the
          -- argument would be empty: `[^)]+` needs at least one character
          c :: degRw fname fu cs
        else
          ("Math." ++ fname ++ "((").data ++ ds ++
            ") * Math.PI / 180)".data ++ degRw fname fu r2
      | _ =>
        match r with
        | '(' :: rIn =>
          let content := rIn.takeWhile (fun ch => !(ch == ')'))
          if content.isEmpty then c :: degRw fname fu cs
          else
            match rIn.drop content.length with
            | ')' :: ')' :: r3 =>
              ("Math." ++ fname ++ "((").data ++ '(' :: content ++
                "))".data ++ " * Math.PI / 180)".data ++ degRw fname fu r3
            | _ => c :: degRw fname fu cs
        | _ => c :: degRw fname fu cs
    else c :: degRw fname fu cs

/-- One trig function of the `mathFuncs` loop (lines 116-124): in Radian mode
the literal replacement `f( → Math.f(`, in Degree mode the argument-converting
rewrite `degRw`. -/
def trigRw (isRad : Bool) (fname : String) (l : List Char) : List Char :=
  if isRad then repAllStr (fname ++ "(") ("Math." ++ fname ++ "(") l
  else degRw fname (l.length + 1) l

/-- The full normalisation chain of `handleCalculate` (lines 90-126), in
source order: symbol substitution (`×`, `÷`, `π`, `e`), exponent, square
roots, then the `mathFuncs` loop over `sin`, `cos`, `tan`, `log` (which
rewrites `ln(`), `log10` (which rewrites `log(`) and `abs`. -/
def normalize (isRad : Bool) (s : String) : String :=
  let l := s.data
  let l := repAllStr "×" "*" l
  let l := repAllStr "÷" "/" l
  let l := repAllStr "π" "Math.PI" l
  let l := repAllStr "e" "Math.E" l
  let l := powRw (l.length + 1) l
  let l := sqrtParenRw (l.length + 1) l
  let l := sqrtDigitsRw (l.length + 1) l
  let l := trigRw isRad "sin" l
  let l := trigRw isRad "cos" l
  let l := trigRw isRad "tan" l
  let l := repAllStr "ln(" "Math.log(" l
  let l := repAllStr "log(" "Math.log10(" l
  let l := repAllStr "abs(" "Math.abs(" l
  String.mk l

/-! ## The JavaScript evaluation of the canonical string (line 130):
`new Function("return " + evalExpr)()`.

The lexer and parser follow the ECMAScript grammar restricted to the
fragment the normaliser can emit from calculator tokens: decimal number
literals, identifiers, member access `a.b`, calls `f(x, y)`, unary `+`/`-`,
binary `+ - * /` with standard precedence and left associativity, and
parenthesised groups.  Any other character is a syntax error.  A thrown
`SyntaxError`, `ReferenceError` or `TypeError` all reach the same `catch`
block of `handleCalculate`. -/

/-- A thrown JavaScript error: lexical or parse failure
(`new Function` throws `SyntaxError`), reading an undeclared identifier
(`ReferenceError`), property access on `undefined` or calling a
non-function (`TypeError`). -/
inductive JErr : Type
  | badParse
  | refErr
  | typeErr
deriving DecidableEq, Repr

/-- Lexical tokens.  A number literal is stored as its digit string value
`mant` and the count `scale` of fractional digits, so its value is
`mant / 10 ^ scale` exactly. -/
inductive Tok : Type
  | num (mant scale : ℕ)
  | ident (name : String)
  | lparen
  | rparen
  | comma
  | dot
  | plus
  | minus
  | star
  | slash
deriving DecidableEq, Repr

/-- Numeric value of a list of decimal digit characters. -/
def digitsToNat (l : List Char) : ℕ :=
  l.foldl (fun a c => 10 * a + (c.toNat - 48)) 0

/-- Fuelled lexer.  Skips spaces; reads maximal digit runs with an optional
fractional part, identifiers (a letter followed by letters or digits), the
punctuation and operator characters; anything else throws `SyntaxError`. -/
def lex : ℕ → List Char → Except JErr (List Tok)
  | 0, _ => .error .badParse
  | _ + 1, [] => .ok []
  | f + 1, c :: cs =>
    if c = ' ' then lex f cs
    else if c.isDigit then
      let ds := (c :: cs).takeWhile Char.isDigit
      match (c :: cs).drop ds.length with
      | '.' :: r2 =>
        let fs := r2.takeWhile Char.isDigit
        (lex f (r2.drop fs.length)).map
          (fun ts => .num (digitsToNat (ds ++ fs)) fs.length :: ts)
      | r =>
        (lex f r).map (fun ts => .num (digitsToNat ds) 0 :: ts)
    else if c.isAlpha then
      let as := (c :: cs).takeWhile (fun ch => ch.isAlpha || ch.isDigit)
      (lex f ((c :: cs).drop as.length)).map
        (fun ts => .ident (String.mk as) :: ts)
    else if c = '.' then
      match cs with
      | d :: _ =>
        if d.isDigit then
          let fs := cs.takeWhile Char.isDigit
          (lex f (cs.drop fs.length)).map
            (fun ts => .num (digitsToNat fs) fs.length :: ts)
        else (lex f cs).map (fun ts => .dot :: ts)
      | [] => (lex f cs).map (fun ts => .dot :: ts)
    else if c = '(' then (lex f cs).map (fun ts => .lparen :: ts)
    else if c = ')' then (lex f cs).map (fun ts => .rparen :: ts)
    else if c = ',' then (lex f cs).map (fun ts => .comma :: ts)
    else if c = '+' then (lex f cs).map (fun ts => .plus :: ts)
    else if c = '-' then (lex f cs).map (fun ts => .minus :: ts)
    else if c = '*' then (lex f cs).map (fun ts => .star :: ts)
    else if c = '/' then (lex f cs).map (fun ts => .slash :: ts)
    else .error .badParse

mutual
/-- Abstract syntax of the JavaScript expression fragment.  `lit m k`
denotes the number literal `m / 10 ^ k`. -/
inductive JExpr : Type
  | lit (mant scale : ℕ)
  | ident (name : String)
  | member (obj : JExpr) (field : String)
  | call (callee : JExpr) (args : JArgs)
  | neg (e : JExpr)
  | pos (e : JExpr)
  | add (a b : JExpr)
  | sub (a b : JExpr)
  | mul (a b : JExpr)
  | div (a b : JExpr)
deriving DecidableEq, Repr
/-- Argument lists of `JExpr.call`. -/
inductive JArgs : Type
  | nil
  | cons (hd : JExpr) (tl : JArgs)
deriving DecidableEq, Repr
end

mutual
/-- Additive level: `Mul (('+' | '-') Mul)*`, left associative. -/
def parseAdd : ℕ → List Tok → Except JErr (JExpr × List Tok)
  | 0, _ => .error .badParse
  | f + 1, ts =>
    match parseMul f ts with
    | .error e => .error e
    | .ok (e1, r) => parseAddLoop f e1 r

/-- Loop of the additive level. -/
def parseAddLoop : ℕ → JExpr → List Tok → Except JErr (JExpr × List Tok)
  | 0, _, _ => .error .badParse
  | f + 1, acc, .plus :: r =>
    match parseMul f r with
    | .error e => .error e
    | .ok (e2, r2) => parseAddLoop f (.add acc e2) r2
  | f + 1, acc, .minus :: r =>
    match parseMul f r with
    | .error e => .error e
    | .ok (e2, r2) => parseAddLoop f (.sub acc e2) r2
  | _ + 1, acc, r => .ok (acc, r)

/-- Multiplicative level: `Unary (('*' | '/') Unary)*`, left associative. -/
def parseMul : ℕ → List Tok → Except JErr (JExpr × List Tok)
  | 0, _ => .error .badParse
  | f + 1, ts =>
    match parseUnary f ts with
    | .error e => .error e
    | .ok (e1, r) => parseMulLoop f e1 r

/-- Loop of the multiplicative level. -/
def parseMulLoop : ℕ → JExpr → List Tok → Except JErr (JExpr × List Tok)
  | 0, _, _ => .error .badParse
  | f + 1, acc, .star :: r =>
    match parseUnary f r with
    | .error e => .error e
    | .ok (e2, r2) => parseMulLoop f (.mul acc e2) r2
  | f + 1, acc, .slash :: r =>
    match parseUnary f r with
    | .error e => .error e
    | .ok (e2, r2) => parseMulLoop f (.div acc e2) r2
  | _ + 1, acc, r => .ok (acc, r)

/-- Unary level: prefix `-` and `+`. -/
def parseUnary : ℕ → List Tok → Except JErr (JExpr × List Tok)
  | 0, _ => .error .badParse
  | f + 1, .minus :: r =>
    match parseUnary f r with
    | .error e => .error e
    | .ok (e1, r2) => .ok (.neg e1, r2)
  | f + 1, .plus :: r =>
    match parseUnary f r with
    | .error e => .error e
    | .ok (e1, r2) => .ok (.pos e1, r2)
  | f + 1, ts => parseCallChain f ts

/-- Member/call level: a primary followed by `.field` and `(args)` steps. -/
def parseCallChain : ℕ → List Tok → Except JErr (JExpr × List Tok)
  | 0, _ => .error .badParse
  | f + 1, ts =>
    match parsePrimary f ts with
    | .error e => .error e
    | .ok (e1, r) => parseCallLoop f e1 r

/-- Loop of the member/call level. -/
def parseCallLoop : ℕ → JExpr → List Tok → Except JErr (JExpr × List Tok)
  | 0, _, _ => .error .badParse
  | f + 1, acc, .dot :: .ident n :: r => parseCallLoop f (.member acc n) r
  | _ + 1, _, .dot :: _ => .error .badParse
  | f + 1, acc, .lparen :: .rparen :: r => parseCallLoop f (.call acc .nil) r
  | f + 1, acc, .lparen :: r =>
    match parseArgs f r with
    | .error e => .error e
    | .ok (args, .rparen :: r2) => parseCallLoop f (.call acc args) r2
    | .ok _ => .error .badParse
  | _ + 1, acc, r => .ok (acc, r)

/-- Comma-separated argument list (at least one argument). -/
def parseArgs : ℕ → List Tok → Except JErr (JArgs × List Tok)
  | 0, _ => .error .badParse
  | f + 1, ts =>
    match parseAdd f ts with
    | .error e => .error e
    | .ok (e1, .comma :: r) =>
      match parseArgs f r with
      | .error e => .error e
      | .ok (rest, r2) => .ok (.cons e1 rest, r2)
    | .ok (e1, r) => .ok (.cons e1 .nil, r)

/-- Primary: a number literal, an identifier or a parenthesised expression. -/
def parsePrimary : ℕ → List Tok → Except JErr (JExpr × List Tok)
  | 0, _ => .error .badParse
  | _ + 1, .num m k :: r => .ok (.lit m k, r)
  | _ + 1, .ident n :: r => .ok (.ident n, r)
  | f + 1, .lparen :: r =>
    match parseAdd f r with
    | .error e => .error e
    | .ok (e1, .rparen :: r2) => .ok (e1, r2)
    | .ok _ => .error .badParse
  | _ + 1, _ => .error .badParse
end

/-- Lex and parse a whole string.  `ok none` is the empty program
(`new Function("return ")` returns `undefined`); trailing tokens after the
expression are a syntax error. -/
def parseOfString (s : String) : Except JErr (Option JExpr) :=
  match lex (s.data.length + 1) s.data with
  | .error e => .error e
  | .ok [] => .ok none
  | .ok ts =>
    match parseAdd (10 * ts.length + 10) ts with
    | .error e => .error e
    | .ok (e1, []) => .ok (some e1)
    | .ok _ => .error .badParse


/-! ## Values and arithmetic

JavaScript numbers are IEEE doubles.  The model idealises the finite doubles
as exact real numbers (so no representation rounding and no negative zero)
while keeping the special values `Infinity`, `-Infinity` and `NaN`, which is
faithful for every value reachable in the verified runs. -/

/-- A JavaScript number: a finite (idealised, exact) real, one of the two
infinities, or `NaN`. -/
inductive JNum : Type
  | fin (x : ℝ)
  | posInf
  | negInf
  | nan

/-- The built-in `Math` functions reachable from the normaliser. -/
inductive JFunName : Type
  | pow
  | sqrt
  | sin
  | cos
  | tan
  | ln
  | log10
  | abs
deriving DecidableEq, Repr

/-- A JavaScript value of the fragment: a number, `undefined`, the `Math`
object, or one of its function properties. -/
inductive JValue : Type
  | num (v : JNum)
  | undefined
  | mathObj
  | fn (f : JFunName)

section Evaluator

open scoped Classical

/-- `ToNumber` coercion: numbers are themselves; `undefined`, objects and
functions coerce to `NaN`. -/
def toNumber : JValue → JNum
  | .num v => v
  | _ => .nan

/-- IEEE negation. -/
def jneg : JNum → JNum
  | .fin a => .fin (-a)
  | .posInf => .negInf
  | .negInf => .posInf
  | .nan => .nan

/-- IEEE addition (`Infinity + -Infinity = NaN`). -/
noncomputable def jadd : JNum → JNum → JNum
  | .fin a, .fin b => .fin (a + b)
  | .fin _, .posInf => .posInf
  | .fin _, .negInf => .negInf
  | .posInf, .fin _ => .posInf
  | .negInf, .fin _ => .negInf
  | .posInf, .posInf => .posInf
  | .negInf, .negInf => .negInf
  | .posInf, .negInf => .nan
  | .negInf, .posInf => .nan
  | _, _ => .nan

/-- IEEE subtraction. -/
noncomputable def jsub (a b : JNum) : JNum := jadd a (jneg b)

/-- IEEE multiplication (`0 * Infinity = NaN`). -/
noncomputable def jmul : JNum → JNum → JNum
  | .fin a, .fin b => .fin (a * b)
  | .fin a, .posInf => if 0 < a then .posInf else if a < 0 then .negInf else .nan
  | .fin a, .negInf => if 0 < a then .negInf else if a < 0 then .posInf else .nan
  | .posInf, .fin b => if 0 < b then .posInf else if b < 0 then .negInf else .nan
  | .negInf, .fin b => if 0 < b then .negInf else if b < 0 then .posInf else .nan
  | .posInf, .posInf => .posInf
  | .negInf, .negInf => .posInf
  | .posInf, .negInf => .negInf
  | .negInf, .posInf => .negInf
  | _, _ => .nan

/-- IEEE division over the idealised domain: a nonzero finite number divided
by zero gives the signed infinity (the model has no negative zero, so the
divisor zero is treated as `+0`), `0 / 0` and `Infinity / Infinity` give
`NaN`, a finite number divided by an infinity gives `0`. -/
noncomputable def jdiv : JNum → JNum → JNum
  | .fin a, .fin b =>
    if b = 0 then (if 0 < a then .posInf else if a < 0 then .negInf else .nan)
    else .fin (a / b)
  | .fin _, .posInf => .fin 0
  | .fin _, .negInf => .fin 0
  | .posInf, .fin b => if 0 ≤ b then .posInf else .negInf
  | .negInf, .fin b => if 0 ≤ b then .negInf else .posInf
  | _, _ => .nan

/-- `Math.pow` on finite arguments, as the real power function (faithful for
the nonnegative bases and natural exponents reachable here); non-finite
arguments are collapsed to `NaN`. -/
noncomputable def jpow : JNum → JNum → JNum
  | .fin a, .fin b => .fin (a ^ b)
  | _, _ => .nan

/-- `Math.sqrt`: `NaN` on negative arguments. -/
noncomputable def jsqrt : JNum → JNum
  | .fin a => if a < 0 then .nan else .fin (Real.sqrt a)
  | .posInf => .posInf
  | _ => .nan

/-- `Math.sin`: `NaN` on non-finite arguments. -/
noncomputable def jsin : JNum → JNum
  | .fin a => .fin (Real.sin a)
  | _ => .nan

/-- `Math.cos`. -/
noncomputable def jcos : JNum → JNum
  | .fin a => .fin (Real.cos a)
  | _ => .nan

/-- `Math.tan`. -/
noncomputable def jtan : JNum → JNum
  | .fin a => .fin (Real.tan a)
  | _ => .nan

/-- `Math.log` (natural logarithm): `-Infinity` at `0`, `NaN` on negatives. -/
noncomputable def jln : JNum → JNum
  | .fin a => if a < 0 then .nan else if a = 0 then .negInf else .fin (Real.log a)
  | .posInf => .posInf
  | _ => .nan

/-- `Math.log10` (base-10 logarithm). -/
noncomputable def jlog10 : JNum → JNum
  | .fin a => if a < 0 then .nan else if a = 0 then .negInf else .fin (Real.logb 10 a)
  | .posInf => .posInf
  | _ => .nan

/-- `Math.abs`. -/
noncomputable def jabs : JNum → JNum
  | .fin a => .fin |a|
  | .nan => .nan
  | _ => .posInf

/-- Apply a `Math` function to its (number-coerced) arguments; a missing
argument is `undefined`, hence `NaN`; extra arguments are ignored. -/
noncomputable def applyMath : JFunName → List JNum → JNum
  | .pow, args => jpow (args.headD .nan) ((args.drop 1).headD .nan)
  | .sqrt, args => jsqrt (args.headD .nan)
  | .sin, args => jsin (args.headD .nan)
  | .cos, args => jcos (args.headD .nan)
  | .tan, args => jtan (args.headD .nan)
  | .ln, args => jln (args.headD .nan)
  | .log10, args => jlog10 (args.headD .nan)
  | .abs, args => jabs (args.headD .nan)

/-- Property lookup on the `Math` object: the two constants, the eight
functions used by the normaliser, and `undefined` for everything else
(in particular `Math.Math` is `undefined`). -/
noncomputable def mathProp (f : String) : JValue :=
  if f = "PI" then .num (.fin Real.pi)
  else if f = "E" then .num (.fin (Real.exp 1))
  else if f = "pow" then .fn .pow
  else if f = "sqrt" then .fn .sqrt
  else if f = "sin" then .fn .sin
  else if f = "cos" then .fn .cos
  else if f = "tan" then .fn .tan
  else if f = "log" then .fn .ln
  else if f = "log10" then .fn .log10
  else if f = "abs" then .fn .abs
  else .undefined

/-- Property access: reading a property of `undefined` throws a
`TypeError`; properties of numbers and functions outside the fragment read
as `undefined`. -/
noncomputable def getMember : JValue → String → Except JErr JValue
  | .undefined, _ => .error .typeErr
  | .mathObj, f => .ok (mathProp f)
  | _, _ => .ok .undefined

/-- Calling a value: only function values are callable, anything else
throws a `TypeError`. -/
noncomputable def applyCall : JValue → List JNum → Except JErr JValue
  | .fn f, args => .ok (.num (applyMath f args))
  | _, _ => .error .typeErr

mutual
/-- Evaluate an expression.  The only declared identifier is `Math`; reading
any other identifier throws a `ReferenceError`.  The callee of a call is
evaluated before its arguments, as in JavaScript. -/
noncomputable def evalE : JExpr → Except JErr JValue
  | .lit m k => .ok (.num (.fin ((m : ℝ) / 10 ^ k)))
  | .ident n => if n = "Math" then .ok .mathObj else .error .refErr
  | .member o f =>
    match evalE o with
    | .error e => .error e
    | .ok v => getMember v f
  | .call c a =>
    match evalE c with
    | .error e => .error e
    | .ok cv =>
      match evalArgs a with
      | .error e => .error e
      | .ok avs => applyCall cv avs
  | .neg e1 =>
    match evalE e1 with
    | .error e => .error e
    | .ok v => .ok (.num (jneg (toNumber v)))
  | .pos e1 =>
    match evalE e1 with
    | .error e => .error e
    | .ok v => .ok (.num (toNumber v))
  | .add a b =>
    match evalE a with
    | .error e => .error e
    | .ok va =>
      match evalE b with
      | .error e => .error e
      | .ok vb => .ok (.num (jadd (toNumber va) (toNumber vb)))
  | .sub a b =>
    match evalE a with
    | .error e => .error e
    | .ok va =>
      match evalE b with
      | .error e => .error e
      | .ok vb => .ok (.num (jsub (toNumber va) (toNumber vb)))
  | .mul a b =>
    match evalE a with
    | .error e => .error e
    | .ok va =>
      match evalE b with
      | .error e => .error e
      | .ok vb => .ok (.num (jmul (toNumber va) (toNumber vb)))
  | .div a b =>
    match evalE a with
    | .error e => .error e
    | .ok va =>
      match evalE b with
      | .error e => .error e
      | .ok vb => .ok (.num (jdiv (toNumber va) (toNumber vb)))

/-- Evaluate an argument list left to right, coercing each to a number. -/
noncomputable def evalArgs : JArgs → Except JErr (List JNum)
  | .nil => .ok []
  | .cons h t =>
    match evalE h with
    | .error e => .error e
    | .ok v =>
      match evalArgs t with
      | .error e => .error e
      | .ok vs => .ok (toNumber v :: vs)
end

/-- The whole of `new Function("return " + s)()`: parse, then evaluate; the
empty program returns `undefined`. -/
noncomputable def jsEval (s : String) : Except JErr JValue :=
  match parseOfString s with
  | .error e => .error e
  | .ok none => .ok .undefined
  | .ok (some ast) => evalE ast

end Evaluator


/-! ## Rounding and display (lines 130-137)

`const finalResult = Math.round(result * 1000000000) / 1000000000` followed
by `String(finalResult)`.  For a finite product the rounded value is an
integer `m`, and the displayed string is the decimal numeral of `m / 10^9`
with trailing fractional zeros stripped. -/

/-- The decimal digit character for `d < 10`. -/
def digitChar (d : ℕ) : Char := Char.ofNat (48 + d)

/-- The `k` little-endian decimal digits of `n` (that is, of `n % 10^k`). -/
def natDigitsRev : ℕ → ℕ → List ℕ
  | 0, _ => []
  | k + 1, n => n % 10 :: natDigitsRev k (n / 10)

/-- Value of a little-endian digit list. -/
def valLE : List ℕ → ℕ
  | [] => 0
  | d :: ds => d + 10 * valLE ds

/-- The fractional part of the display string: the nine decimal digits of
`fp / 10^9` with trailing zeros stripped (empty when `fp = 0`). -/
def fracChars (fp : ℕ) : List Char :=
  (((natDigitsRev 9 fp).dropWhile (fun d => d == 0)).reverse).map digitChar

/-- `String(m / 10^9)` for an integer `m`: sign, integer part, and the
stripped fractional digits. -/
def decStr (m : ℤ) : String :=
  let n := m.natAbs
  let ip := Nat.toDigits 10 (n / 1000000000)
  let fr := fracChars (n % 1000000000)
  let core := if fr = [] then ip else ip ++ '.' :: fr
  String.mk (if m < 0 then '-' :: core else core)

/-- `String(Math.round(result * 1000000000) / 1000000000)` for the raw
evaluation result (lines 130-133): `undefined` and other non-numbers coerce
to `NaN` in the multiplication; `Math.round` maps `NaN` and the infinities
to themselves, and rounds a finite value half-up (`⌊x + 1/2⌋`, which is
`round` in Lean). -/
noncomputable def finalDisplay (v : JValue) : String :=
  match jmul (toNumber v) (.fin 1000000000) with
  | .nan => "NaN"
  | .posInf => "Infinity"
  | .negInf => "-Infinity"
  | .fin x => decStr (round x)

/-! ## The handlers (lines 54-143) and the angle-unit toggle (line 167) -/

/-- The operator tokens of `handleInput` (line 60):
`['+', '-', '*', '/', '^']`. -/
def operatorToks : List String := ["+", "-", "*", "/", "^"]

/-- `handleInput` (lines 54-67): on an error display, restart with the
typed value; otherwise replace the buffer with the value when the buffer
equals the display and the value is not an operator, else append. -/
def handleInput (val : String) (s : CalcState) : CalcState :=
  if s.displayValue = "Error" then
    { s with expression := val, displayValue := val }
  else
    let nextExpr :=
      if s.expression = s.displayValue ∧ val ∉ operatorToks then val
      else s.expression ++ val
    { s with expression := nextExpr, displayValue := nextExpr }

/-- `handleClear` (lines 81-85): clear buffer and history, display `"0"`;
the angle unit is untouched. -/
def handleClear (s : CalcState) : CalcState :=
  { s with expression := "", displayValue := "0", history := "" }

/-- `handleDelete` (lines 70-78): full clear on an error display, otherwise
drop the last character (`slice(0, -1)`), displaying `"0"` when the buffer
becomes empty. -/
def handleDelete (s : CalcState) : CalcState :=
  if s.displayValue = "Error" then handleClear s
  else
    let newExpr := String.mk s.expression.data.dropLast
    { s with expression := newExpr,
             displayValue := if newExpr = "" then "0" else newExpr }

/-- `handleCalculate` (lines 88-143): normalise the buffer with the current
angle unit, evaluate it as JavaScript, and on success store the rounded
stringified result in history/display/buffer; on any thrown error display
`"Error"` and clear the buffer (history is not touched by the catch
block). -/
noncomputable def handleCalculate (s : CalcState) : CalcState :=
  match jsEval (normalize s.isRad s.expression) with
  | .error _ => { s with displayValue := "Error", expression := "" }
  | .ok v =>
    let str := finalDisplay v
    { s with history := s.expression, displayValue := str, expression := str }

/-- The RAD/DEG button (line 167): `setIsRad(!isRad)`. -/
def toggleAngleUnit (s : CalcState) : CalcState :=
  { s with isRad := !s.isRad }


/-- The user-visible display/buffer coherence predicate: either the display
shows exactly the buffer, or the buffer is empty and the display shows
`"0"` or `"Error"`. -/
def displayInv (s : CalcState) : Prop :=
  s.displayValue = s.expression ∨
    (s.expression = "" ∧ (s.displayValue = "0" ∨ s.displayValue = "Error"))

/-! ## Helper lemmas -/

/-- Any thrown error reaches the catch block (lines 139-142), which sets
the display to `"Error"`, clears the buffer, and leaves history as it
was. -/
lemma handleCalculate_of_error (s : CalcState) (e : JErr)
    (h : jsEval (normalize s.isRad s.expression) = .error e) :
    handleCalculate s = { s with displayValue := "Error", expression := "" } := by
  rw [handleCalculate, h]

/-- Evaluating the buffer `"5/0"`: division of a positive number by zero is
IEEE positive infinity, which the success path propagates, so the display
and buffer become `"Infinity"` and history records `"5/0"`. -/
lemma calc_five_div_zero : handleCalculate ⟨ "5/0", "5/0", false, "" ⟩ =
    ⟨ "Infinity", "Infinity", false, "5/0" ⟩ := by
  have hn : normalize false "5/0" = "5/0" := by rfl
  have he : jsEval "5/0" = .ok (.num .posInf) := by
    have hp : parseOfString "5/0" = .ok (some (.div (.lit 5 0) (.lit 0 0))) := by rfl
    rw [jsEval, hp]
    simp [evalE, toNumber, jdiv]
  rw [handleCalculate]
  simp only [hn, he]
  rw [finalDisplay]
  simp [toNumber, jmul]

/-- Evaluating the buffer `"log(100)"` gives `2`. -/
lemma calc_log_hundred : handleCalculate ⟨ "log(100)", "log(100)", false, "" ⟩ =
    ⟨ "2", "2", false, "log(100)" ⟩ := by
  have hn : normalize false "log(100)" = "Math.log10(100)" := by rfl
  have he : jsEval "Math.log10(100)" = .ok (.num (.fin (Real.logb 10 100))) := by
    have hp : parseOfString "Math.log10(100)" =
        .ok (some (.call (.member (.ident "Math") "log10") (.cons (.lit 100 0) .nil))) := by
      rfl
    rw [jsEval, hp]
    simp [evalE, evalArgs, getMember, mathProp, applyCall, applyMath, jlog10, toNumber]
  have hv : Real.logb 10 100 = 2 := by
    rw [show (100 : ℝ) = 10 ^ (2 : ℕ) by norm_num, Real.logb_pow,
      Real.logb_self_eq_one (by norm_num : (1 : ℝ) < 10)]
    norm_num
  have hr : round ((2 : ℝ) * 1000000000) = (2000000000 : ℤ) := by
    rw [show ((2 : ℝ) * 1000000000) = ((2000000000 : ℕ) : ℝ) by norm_num, round_natCast]
    norm_num
  rw [handleCalculate]
  simp only [hn, he]
  rw [finalDisplay]
  simp only [toNumber, jmul, hv, hr]
  rfl

/-- Evaluating the buffer `"ln(e)"`: the `log( → Math.log10(` pass corrupts
the `Math.log(` produced by the earlier `ln( → Math.log(` pass, yielding
`Math.Math.log10(Math.E)`; `Math.Math` is `undefined`, so the property
access throws and the error state results. -/
lemma calc_ln_euler : handleCalculate ⟨ "ln(e)", "ln(e)", false, "" ⟩ =
    ⟨ "", "Error", false, "" ⟩ := by
  have hn : normalize false "ln(e)" = "Math.Math.log10(Math.E)" := by rfl
  have he : jsEval "Math.Math.log10(Math.E)" = .error .typeErr := by
    have hp : parseOfString "Math.Math.log10(Math.E)" =
        .ok (some (.call (.member (.member (.ident "Math") "Math") "log10")
          (.cons (.member (.ident "Math") "E") .nil))) := by rfl
    rw [jsEval, hp]
    simp [evalE, getMember, mathProp]
  rw [handleCalculate]
  simp only [hn, he]

/-- Degree-mode evaluation of `"sin(90)"`: the argument is rewritten to
`(90) * Math.PI / 180 = π / 2`, whose sine is exactly `1`. -/
lemma calc_sin_deg : handleCalculate ⟨ "sin(90)", "sin(90)", false, "" ⟩ =
    ⟨ "1", "1", false, "sin(90)" ⟩ := by
  have hn : normalize false "sin(90)" = "Math.sin((90) * Math.PI / 180)" := by rfl
  have he : jsEval "Math.sin((90) * Math.PI / 180)" =
      .ok (.num (.fin (Real.sin ((90 : ℝ) * Real.pi / 180)))) := by
    have hp : parseOfString "Math.sin((90) * Math.PI / 180)" =
        .ok (some (.call (.member (.ident "Math") "sin")
          (.cons (.div (.mul (.lit 90 0) (.member (.ident "Math") "PI")) (.lit 180 0))
            .nil))) := by rfl
    rw [jsEval, hp]
    simp [evalE, evalArgs, getMember, mathProp, applyCall, applyMath, jsin, jmul, jdiv,
      toNumber]
  have hv : Real.sin ((90 : ℝ) * Real.pi / 180) = 1 := by
    rw [show (90 : ℝ) * Real.pi / 180 = Real.pi / 2 by ring, Real.sin_pi_div_two]
  have hr : round ((1 : ℝ) * 1000000000) = (1000000000 : ℤ) := by
    rw [show ((1 : ℝ) * 1000000000) = ((1000000000 : ℕ) : ℝ) by norm_num, round_natCast]
    norm_num
  rw [handleCalculate]
  simp only [hn, he]
  rw [finalDisplay]
  simp only [toNumber, jmul, hv, hr]
  rfl

/-- Radian-mode evaluation of `"sin(90)"`: the display is the rounded
stringification of `sin 90` (radians). -/
lemma calc_sin_rad : handleCalculate ⟨ "sin(90)", "sin(90)", true, "" ⟩ =
    ⟨ decStr (round (Real.sin 90 * 1000000000)),
      decStr (round (Real.sin 90 * 1000000000)), true, "sin(90)" ⟩ := by
  have hn : normalize true "sin(90)" = "Math.sin(90)" := by rfl
  have he : jsEval "Math.sin(90)" = .ok (.num (.fin (Real.sin 90))) := by
    have hp : parseOfString "Math.sin(90)" =
        .ok (some (.call (.member (.ident "Math") "sin") (.cons (.lit 90 0) .nil))) := by
      rfl
    rw [jsEval, hp]
    simp [evalE, evalArgs, getMember, mathProp, applyCall, applyMath, jsin, toNumber]
  rw [handleCalculate]
  simp only [hn, he]
  rw [finalDisplay]
  simp only [toNumber, jmul]

/-- Numeric bracketing of `sin 90` (radians), via periodicity
(`sin 90 = sin (90 - 28π) = cos (90 - 28.5π)`), the six-decimal bounds on
`π` and the quartic Taylor bound on `cos`.  The true value is
`0.89399666…`. -/
lemma sin_ninety_bounds : 0.889 < Real.sin 90 ∧ Real.sin 90 < 0.895 := by
  obtain ⟨t, ht⟩ : ∃ t : ℝ, t = 90 - 28 * Real.pi - Real.pi / 2 := ⟨_, rfl⟩
  have h90 : (90 : ℝ) = (90 - 28 * Real.pi) + (14 : ℤ) * (2 * Real.pi) := by
    push_cast
    ring
  have h1 : Real.sin 90 = Real.sin (90 - 28 * Real.pi) := by
    conv_lhs => rw [h90]
    rw [Real.sin_add_int_mul_two_pi]
  have h2 : Real.sin (90 - 28 * Real.pi) = Real.cos t := by
    rw [← Real.cos_pi_div_two_sub,
      show Real.pi / 2 - (90 - 28 * Real.pi) = -(90 - 28 * Real.pi - Real.pi / 2) by ring,
      Real.cos_neg, ht]
  have hπl := Real.pi_gt_d6
  have hπu := Real.pi_lt_d6
  have htl : 0.4645 < t := by rw [ht]; nlinarith
  have htu : t < 0.4647 := by rw [ht]; nlinarith
  have htpos : 0 < t := by linarith
  have habs : |t| ≤ 1 := by
    rw [abs_of_pos htpos]
    linarith
  have hb := Real.cos_bound habs
  rw [abs_of_pos htpos] at hb
  have hb2 := abs_le.mp hb
  have ht2l : 0.4645 ^ 2 < t ^ 2 := by nlinarith
  have ht2u : t ^ 2 < 0.4647 ^ 2 := by nlinarith
  have ht4 : t ^ 4 < 0.4647 ^ 4 := by nlinarith
  constructor
  · rw [h1, h2]
    nlinarith [hb2.1]
  · rw [h1, h2]
    nlinarith [hb2.2]

/-- The value of the `k` little-endian digits of `n` is `n % 10 ^ k`. -/
lemma valLE_natDigitsRev : ∀ (k n : ℕ), valLE (natDigitsRev k n) = n % 10 ^ k := by
  intro k
  induction k with
  | zero => intro n; simp [natDigitsRev, valLE, Nat.mod_one]
  | succ k ih =>
    intro n
    simp only [natDigitsRev, valLE, ih]
    rw [pow_succ, mul_comm (10 ^ k) 10, Nat.mod_mul]

/-- A digit list of zeros has value zero. -/
lemma valLE_eq_zero : ∀ l : List ℕ, (∀ x ∈ l, x = 0) → valLE l = 0 := by
  intro l
  induction l with
  | nil => intro _; rfl
  | cons d ds ih =>
    intro h
    simp only [valLE, h d (List.mem_cons_self d ds),
      ih (fun x hx => h x (List.mem_cons_of_mem d hx))]

/-- A nonzero fractional part below `10^9` has a nonempty digit string. -/
lemma fracChars_ne_nil (fp : ℕ) (h0 : fp ≠ 0) (hlt : fp < 1000000000) :
    fracChars fp ≠ [] := by
  intro hEq
  rw [fracChars] at hEq
  rw [List.map_eq_nil_iff] at hEq
  rw [List.reverse_eq_nil_iff] at hEq
  have hall : ∀ x ∈ natDigitsRev 9 fp, x = 0 := by
    intro x hx
    have hx2 := (List.dropWhile_eq_nil_iff.mp hEq) x hx
    simpa using hx2
  have hv : valLE (natDigitsRev 9 fp) = 0 := valLE_eq_zero _ hall
  rw [valLE_natDigitsRev] at hv
  have hm : fp % 10 ^ 9 = fp := Nat.mod_eq_of_lt (by norm_num at hlt ⊢; omega)
  omega

/-- A rounded value strictly between `0` and `10^9` prints as
`"0.<digits>"`, never as `"1"`. -/
lemma decStr_ne_one (m : ℤ) (h1 : 0 < m) (h2 : m < 1000000000) : decStr m ≠ "1" := by
  intro hEq
  rw [decStr] at hEq
  have hna : (m.natAbs : ℤ) = m := Int.natAbs_of_nonneg h1.le
  have hn0 : m.natAbs ≠ 0 := by omega
  have hnlt : m.natAbs < 1000000000 := by omega
  have hdiv : m.natAbs / 1000000000 = 0 := Nat.div_eq_of_lt hnlt
  have hmod : m.natAbs % 1000000000 = m.natAbs := Nat.mod_eq_of_lt hnlt
  rw [hdiv, hmod] at hEq
  have hfr : fracChars m.natAbs ≠ [] := fracChars_ne_nil _ hn0 hnlt
  rw [if_neg hfr, if_neg (by omega : ¬ m < 0)] at hEq
  have hip : Nat.toDigits 10 0 = ['0'] := by rfl
  rw [hip] at hEq
  have hq := congrArg String.data hEq
  simp at hq

/-- The rounded radian result of `sin(90)` lies strictly between `0` and
`10^9`. -/
lemma sin_rad_round_bounds : 0 < round (Real.sin 90 * 1000000000) ∧
    round (Real.sin 90 * 1000000000) < 1000000000 := by
  have hb := sin_ninety_bounds
  rw [round_eq]
  constructor
  · rw [Int.lt_iff_add_one_le, zero_add, Int.le_floor]
    push_cast
    nlinarith [hb.1]
  · rw [Int.floor_lt]
    push_cast
    nlinarith [hb.2]

/-- Evaluating the single-digit buffer `"5"` reproduces `"5"` and records it
in history. -/
lemma calc_five : handleCalculate ⟨ "5", "5", false, "" ⟩ = ⟨ "5", "5", false, "5" ⟩ := by
  have hn : normalize false "5" = "5" := by rfl
  have he : jsEval "5" = .ok (.num (.fin ((5 : ℕ) / 10 ^ 0 : ℝ))) := by
    have hp : parseOfString "5" = .ok (some (.lit 5 0)) := by rfl
    rw [jsEval, hp]
    simp [evalE]
  have hv : ((5 : ℕ) / 10 ^ 0 : ℝ) = 5 := by norm_num
  have hr : round ((5 : ℝ) * 1000000000) = (5000000000 : ℤ) := by
    rw [show ((5 : ℝ) * 1000000000) = ((5000000000 : ℕ) : ℝ) by norm_num, round_natCast]
    norm_num
  rw [handleCalculate]
  simp only [hn, he]
  rw [finalDisplay]
  simp only [toNumber, jmul, hv, hr]
  rfl


/-! ## The claims -/

/-- C1 (counterexample): evaluating `"5/0"` does not yield the error
outcome: the infinite quotient is propagated and displayed as
`"Infinity"`, contradicting the claim that division by zero is caught and
converted to an evaluation error. -/
theorem claim1_counterexample :
    (handleCalculate ⟨ "5/0", "5/0", false, "" ⟩).displayValue = "Infinity" ∧
    (handleCalculate ⟨ "5/0", "5/0", false, "" ⟩).displayValue ≠ "Error" := by
  rw [calc_five_div_zero]
  exact ⟨ rfl, by decide ⟩

/-- C1 (amended): for the input string `"5/0"` the evaluation pipeline runs
the success path: the division yields IEEE positive infinity, which is not
caught; the display and the buffer become `"Infinity"` and the history
records `"5/0"`.  No error state is produced. -/
theorem claim1_amended : handleCalculate ⟨ "5/0", "5/0", false, "" ⟩ =
    ⟨ "Infinity", "Infinity", false, "5/0" ⟩ :=
  calc_five_div_zero

/-- C2: evaluating the normalized form of `"log(100)"` returns exactly `2`
(base-10 logarithm), as claimed; but `"ln(e)"` does NOT evaluate to `1`:
the later `log( → Math.log10(` replacement corrupts the already-rewritten
`Math.log(` into `Math.Math.log10(`, property access on the `undefined`
value `Math.Math` throws, and the result is the error state.  The code
contradicts the intent documented in its own comments (the `ln` key is the
natural logarithm), so this is a code bug exhibited at input `"ln(e)"`. -/
theorem claim2_code_behavior :
    handleCalculate ⟨ "log(100)", "log(100)", false, "" ⟩ =
      ⟨ "2", "2", false, "log(100)" ⟩ ∧
    normalize false "ln(e)" = "Math.Math.log10(Math.E)" ∧
    handleCalculate ⟨ "ln(e)", "ln(e)", false, "" ⟩ = ⟨ "", "Error", false, "" ⟩ :=
  ⟨ calc_log_hundred, rfl, calc_ln_euler ⟩

/-- C3: after a successful evaluation (here of `"5"`) the buffer equals the
result, and an operator token appends (`"5+"`), as claimed; but the next
digit token does NOT append: because `handleInput` re-establishes
`expression = displayValue` after every keystroke, the replace-on-digit
heuristic fires again and the buffer becomes `"3"` instead of `"5+3"`.
The chaining behaviour documented in the source comment (reset only when
the display holds the previous result) is broken: a code bug. -/
theorem claim3_code_behavior :
    (handleCalculate (handleInput "5" initState)).expression = "5" ∧
    (handleInput "+" (handleCalculate (handleInput "5" initState))).expression = "5+" ∧
    (handleInput "3"
      (handleInput "+" (handleCalculate (handleInput "5" initState)))).expression = "3" ∧
    (handleInput "3"
      (handleInput "+" (handleCalculate (handleInput "5" initState)))).expression ≠
      "5+3" := by
  have h1 : handleInput "5" initState = ⟨ "5", "5", false, "" ⟩ := by decide
  rw [h1, calc_five]
  refine ⟨ rfl, ?_, ?_, ?_ ⟩ <;> decide

/-- C4 (counterexample): the empty input does not produce the error state:
`new Function("return ")()` is `undefined`, the rounding multiplies it into
`NaN`, and the display becomes `"NaN"` on the success path. -/
theorem claim4_counterexample :
    (handleCalculate initState).displayValue = "NaN" ∧
    (handleCalculate initState).displayValue ≠ "Error" := by
  have hn : normalize false "" = "" := by rfl
  have he : jsEval "" = .ok .undefined := by rw [jsEval]; rfl
  rw [handleCalculate]
  simp only [initState, hn, he]
  rw [finalDisplay]
  simp [toNumber, jmul]

/-- C4 (amended): the malformed inputs `"2+"` and `"((3"` throw a
`SyntaxError` inside `new Function` and yield the error state (display
`"Error"`, buffer cleared), with no crash; the empty string, however, is
not treated as malformed: it evaluates to `undefined` and the display and
buffer become `"NaN"`. -/
theorem claim4_amended :
    handleCalculate ⟨ "2+", "2+", false, "" ⟩ = ⟨ "", "Error", false, "" ⟩ ∧
    handleCalculate ⟨ "((3", "((3", false, "" ⟩ = ⟨ "", "Error", false, "" ⟩ ∧
    handleCalculate ⟨ "", "0", false, "" ⟩ = ⟨ "NaN", "NaN", false, "" ⟩ := by
  refine ⟨ handleCalculate_of_error _ JErr.badParse (by rfl),
    handleCalculate_of_error _ JErr.badParse (by rfl), ?_ ⟩
  have hn : normalize false "" = "" := by rfl
  have he : jsEval "" = .ok .undefined := by rw [jsEval]; rfl
  rw [handleCalculate]
  simp only [hn, he]
  rw [finalDisplay]
  simp [toNumber, jmul]

/-- C5 (counterexample): a failing evaluation from a state with nonempty
history (reachable by evaluating `"7"` and then entering `"2+"`) shows
`"Error"` but does NOT clear the history: the catch block never touches
it, contradicting the claim that history is cleared. -/
theorem claim5_counterexample :
    (handleCalculate ⟨ "2+", "2+", false, "7" ⟩).displayValue = "Error" ∧
    (handleCalculate ⟨ "2+", "2+", false, "7" ⟩).history ≠ "" := by
  rw [handleCalculate_of_error _ JErr.badParse (by rfl)]
  exact ⟨ rfl, by decide ⟩

/-- C5 (amended): for every evaluation that fails, the resulting state has
display `"Error"` and an empty buffer, and the history retains its previous
value (the catch block does not clear it). -/
theorem claim5_amended (s : CalcState) (e : JErr)
    (h : jsEval (normalize s.isRad s.expression) = .error e) :
    handleCalculate s = { s with displayValue := "Error", expression := "" } :=
  handleCalculate_of_error s e h

/-- Witness for C5: the amended statement applied to the failing buffer
`"2+"` with history `"7"`. -/
theorem claim5_witness :
    handleCalculate ⟨ "2+", "2+", false, "7" ⟩ = ⟨ "", "Error", false, "7" ⟩ :=
  claim5_amended ⟨ "2+", "2+", false, "7" ⟩ JErr.badParse (by rfl)

/-- C6: the same input `"sin(90)"` gives `"1"` in Degree mode (the argument
is converted to `π/2`, whose sine is exactly one) and a different result in
Radian mode: the radian display is the rounding of `sin 90 ≈ 0.893996664`,
which lies strictly between `0.889` and `0.895` and therefore differs from
`"1"`. -/
theorem claim6_angle_units :
    (handleCalculate ⟨ "sin(90)", "sin(90)", false, "" ⟩).displayValue = "1" ∧
    (handleCalculate ⟨ "sin(90)", "sin(90)", true, "" ⟩).displayValue =
      decStr (round (Real.sin 90 * 1000000000)) ∧
    0.889 < Real.sin 90 ∧ Real.sin 90 < 0.895 ∧
    (handleCalculate ⟨ "sin(90)", "sin(90)", true, "" ⟩).displayValue ≠
      (handleCalculate ⟨ "sin(90)", "sin(90)", false, "" ⟩).displayValue := by
  refine ⟨ by rw [calc_sin_deg], by rw [calc_sin_rad], sin_ninety_bounds.1,
    sin_ninety_bounds.2, ?_ ⟩
  rw [calc_sin_deg, calc_sin_rad]
  exact decStr_ne_one _ sin_rad_round_bounds.1 sin_rad_round_bounds.2

/-- C7: the normalizer rewrites `"2^10"` (number-caret-number, decimal
numbers only) to the binary power call `"Math.pow(2, 10)"`, and the
evaluation displays `"1024"`. -/
theorem claim7_power :
    normalize false "2^10" = "Math.pow(2, 10)" ∧
    handleCalculate ⟨ "2^10", "2^10", false, "" ⟩ = ⟨ "1024", "1024", false, "2^10" ⟩ := by
  refine ⟨ rfl, ?_ ⟩
  have hn : normalize false "2^10" = "Math.pow(2, 10)" := by rfl
  have he : jsEval "Math.pow(2, 10)" = .ok (.num (.fin ((2 : ℝ) ^ (10 : ℝ)))) := by
    have hp : parseOfString "Math.pow(2, 10)" =
        .ok (some (.call (.member (.ident "Math") "pow")
          (.cons (.lit 2 0) (.cons (.lit 10 0) .nil)))) := by rfl
    rw [jsEval, hp]
    simp [evalE, evalArgs, getMember, mathProp, applyCall, applyMath, jpow, toNumber]
  have hv : (2 : ℝ) ^ (10 : ℝ) = 1024 := by
    rw [show (10 : ℝ) = ((10 : ℕ) : ℝ) by norm_num, Real.rpow_natCast]
    norm_num
  have hr : round ((1024 : ℝ) * 1000000000) = (1024000000000 : ℤ) := by
    rw [show ((1024 : ℝ) * 1000000000) = ((1024000000000 : ℕ) : ℝ) by norm_num,
      round_natCast]
    norm_num
  rw [handleCalculate]
  simp only [hn, he]
  rw [finalDisplay]
  simp only [toNumber, jmul, hv, hr]
  rfl

/-- C8: both root forms are rewritten to `"Math.sqrt(16)"` — the
parenthesised `"√(16)"` (contents up to the matching close paren) and the
bare-digits `"√16"` — and both evaluate to the display `"4"`. -/
theorem claim8_sqrt :
    normalize false "√(16)" = "Math.sqrt(16)" ∧
    normalize false "√16" = "Math.sqrt(16)" ∧
    handleCalculate ⟨ "√(16)", "√(16)", false, "" ⟩ = ⟨ "4", "4", false, "√(16)" ⟩ ∧
    handleCalculate ⟨ "√16", "√16", false, "" ⟩ = ⟨ "4", "4", false, "√16" ⟩ := by
  have he : jsEval "Math.sqrt(16)" = .ok (.num (.fin (Real.sqrt 16))) := by
    have hp : parseOfString "Math.sqrt(16)" =
        .ok (some (.call (.member (.ident "Math") "sqrt") (.cons (.lit 16 0) .nil))) := by
      rfl
    rw [jsEval, hp]
    simp [evalE, evalArgs, getMember, mathProp, applyCall, applyMath, jsqrt, toNumber]
  have hs : Real.sqrt 16 = 4 := by
    rw [show (16 : ℝ) = 4 ^ 2 by norm_num, Real.sqrt_sq (by norm_num : (0 : ℝ) ≤ 4)]
  have hr : round ((4 : ℝ) * 1000000000) = (4000000000 : ℤ) := by
    rw [show ((4 : ℝ) * 1000000000) = ((4000000000 : ℕ) : ℝ) by norm_num, round_natCast]
    norm_num
  refine ⟨ rfl, rfl, ?_, ?_ ⟩
  · have hn : normalize false "√(16)" = "Math.sqrt(16)" := by rfl
    rw [handleCalculate]
    simp only [hn, he]
    rw [finalDisplay]
    simp only [toNumber, jmul, hs, hr]
    rfl
  · have hn : normalize false "√16" = "Math.sqrt(16)" := by rfl
    rw [handleCalculate]
    simp only [hn, he]
    rw [finalDisplay]
    simp only [toNumber, jmul, hs, hr]
    rfl

/-- C9: the angle unit defaults to Degree (`isRad = false`); the toggle
flips only the `isRad` flag and leaves buffer, display and history
untouched; input accumulation commutes with the toggle; and evaluation
depends only on the buffer and the flag at the moment it fires, so a toggle
takes effect exactly on the next evaluation and never retroactively. -/
theorem claim9_angle_toggle :
    initState.isRad = false ∧
    (∀ s : CalcState, (toggleAngleUnit s).expression = s.expression ∧
      (toggleAngleUnit s).displayValue = s.displayValue ∧
      (toggleAngleUnit s).history = s.history ∧
      (toggleAngleUnit s).isRad = !s.isRad) ∧
    (∀ (v : String) (s : CalcState),
      handleInput v (toggleAngleUnit s) = toggleAngleUnit (handleInput v s)) ∧
    (∀ s t : CalcState, s.isRad = t.isRad → s.expression = t.expression →
      (handleCalculate s).displayValue = (handleCalculate t).displayValue ∧
      (handleCalculate s).expression = (handleCalculate t).expression) := by
  refine ⟨ rfl, fun s => ⟨ rfl, rfl, rfl, rfl ⟩, ?_, ?_ ⟩
  · intro v s
    rw [handleInput, handleInput, toggleAngleUnit]
    split_ifs <;> rfl
  · intro s t h1 h2
    rw [handleCalculate, handleCalculate, h1, h2]
    rcases h : jsEval (normalize t.isRad t.expression) with e | w <;> simp

/-- Witness for C9: the evaluation-time clause applied to two concrete
states sharing buffer and unit but differing in display and history. -/
theorem claim9_witness :
    initState.isRad = false ∧
    (handleCalculate ⟨ "sin(90)", "stale", false, "old" ⟩).displayValue =
      (handleCalculate ⟨ "sin(90)", "sin(90)", false, "" ⟩).displayValue :=
  ⟨ claim9_angle_toggle.1,
    (claim9_angle_toggle.2.2.2 ⟨ "sin(90)", "stale", false, "old" ⟩
      ⟨ "sin(90)", "sin(90)", false, "" ⟩ rfl rfl).1 ⟩

/-- C10: after every public operation the display/buffer coherence
invariant holds: the display equals the buffer, or the buffer is empty and
the display is `"0"` or `"Error"` (a strengthening of the claimed
disjunction, which also allowed a stringified-result marker); the display
never shows a stale expression differing from a non-empty buffer. -/
theorem claim10_display_invariant : ∀ (s : CalcState) (v : String),
    displayInv (handleInput v s) ∧ displayInv (handleDelete s) ∧
    displayInv (handleClear s) ∧ displayInv (handleCalculate s) := by
  intro s v
  refine ⟨ ?_, ?_, ?_, ?_ ⟩
  · rw [handleInput]
    split_ifs with h1 h2 <;> simp [displayInv]
  · rw [handleDelete]
    split_ifs with h1
    · simp [handleClear, displayInv]
    · by_cases h2 : String.mk s.expression.data.dropLast = ""
      · simp [displayInv, h2]
      · simp [displayInv, h2]
  · simp [handleClear, displayInv]
  · rw [handleCalculate]
    rcases h : jsEval (normalize s.isRad s.expression) with e | w
    · simp [displayInv]
    · simp [displayInv]

end App
